import Mathlib

/-!
Verification of the forward supervisor of `local-dependency-forwarder`.

The definitions below are a shallow embedding of the current
`ForwardManager` class (the variant used by the extension entry point:
it carries the change emitter, `healthCheck`, `stopAll`, and per-key
failure counters) together with the configuration types from
`config.ts`.  External effects (process spawning, kills, change
notifications, TCP port probes) are made explicit: the world supplies
a probe oracle `probe : port → timeoutMs → Bool` and an exit oracle
`exitCode : pid → Option Int`, and each operation returns, next to the
updated supervisor state, a record of the effects it performed.
-/

namespace LDF

/-- `kind` field of a `ForwardKey`: the TS union `'ssh' | 'k8s'`. -/
inductive Kind where
  | ssh
  | k8s
deriving Repr, DecidableEq

/-- String form of a `Kind`, as it appears in template literals. -/
def kindStr : Kind → String
  | .ssh => "ssh"
  | .k8s => "k8s"

/-- `SshTunnel` from `config.ts`. -/
structure SshTunnel where
  id : String
  title : String
  localPort : Nat
  remoteHost : String
  remotePort : Nat
  sshHost : String
deriving Repr, DecidableEq

/-- `K8sForward` from `config.ts` (`namespace` is a Lean keyword, so the
field is called `nspace` here). -/
structure K8sForward where
  id : String
  title : String
  nspace : String
  serviceName : String
  localPort : Nat
  remotePort : Nat
deriving Repr, DecidableEq

/-- `EnvironmentConfig` from `config.ts`.  Note the declared type has no
field for ssh agent keys, so `addSshKeysIfPresent` (which reads
`env.sshAddKeys || []`) always sees an empty list and spawns nothing; it
is therefore embedded as a no-op. -/
structure EnvironmentConfig where
  id : String
  name : String
  kubectlContext : Option String
  sshTunnels : List SshTunnel
  k8sForwards : List K8sForward
deriving Repr, DecidableEq

/-- `ForwardKey` from `config.ts`. -/
structure ForwardKey where
  envId : String
  kind : Kind
  id : String
deriving Repr, DecidableEq

/-- `keyToId`: the template literal `envId:kind:id`. -/
def keyToId (key : ForwardKey) : String :=
  key.envId ++ ":" ++ kindStr key.kind ++ ":" ++ key.id

/-- `RunningProc`: the runtime registry record.  The opaque
`ChildProcess` handle is abstracted to a numeric `pid`. -/
structure RunningProc where
  key : ForwardKey
  pid : Nat
  command : String
  args : List String
  localPort : Nat
  startedAt : Nat
deriving Repr, DecidableEq

/-! ### Association lists standing for the JS `Map`s

JS `Map` keeps insertion order; `set` on an existing key replaces in
place, on a fresh key appends; `delete` removes the entry.  The
supervisor maps always have pairwise-distinct keys, so removing every
entry with the key is the same as removing the one entry. -/

/-- `Map.get` (first entry with the key). -/
def lookupKey {α : Type} : List (String × α) → String → Option α
  | [], _ => none
  | (k, v) :: rest, k0 => if k = k0 then some v else lookupKey rest k0

/-- `Map.set`: replace in place, or append when absent. -/
def setKey {α : Type} : List (String × α) → String → α → List (String × α)
  | [], k0, v0 => [(k0, v0)]
  | (k, v) :: rest, k0, v0 =>
      if k = k0 then (k0, v0) :: rest else (k, v) :: setKey rest k0 v0

/-- `Map.delete`. -/
def eraseKey {α : Type} (m : List (String × α)) (k0 : String) :
    List (String × α) :=
  m.filter (fun e => !(e.1 == k0))

/-- The keys of the map, in order. -/
def keysOf {α : Type} (m : List (String × α)) : List String :=
  m.map Prod.fst

/-- Supervisor state: `processes`, `portFailureCounts`, and the current
configuration snapshot `envs`.  `nextPid` feeds fresh pids to `spawn`. -/
structure ManagerState where
  processes : List (String × RunningProc)
  portFailureCounts : List (String × Nat)
  envs : List EnvironmentConfig
  nextPid : Nat
deriving Repr, DecidableEq

/-- `isRunning`. -/
def isRunning (key : ForwardKey) (s : ManagerState) : Bool :=
  (lookupKey s.processes (keyToId key)).isSome

/-- `findByPort`: first registry value with the given `localPort`. -/
def findByPort : List (String × RunningProc) → Nat → Option RunningProc
  | [], _ => none
  | (_, p) :: rest, port =>
      if p.localPort = port then some p else findByPort rest port

/-- The errors `start` can throw, by message template. -/
inductive StartError where
  | unknownEnv (envId : String)
  | unknownSsh (id : String)
  | unknownK8s (id : String)
  | portConflict (port : Nat)
deriving Repr, DecidableEq

/-- The exact `Error` message strings thrown by `start`. -/
def StartError.message : StartError → String
  | .unknownEnv e => "Unknown env " ++ e
  | .unknownSsh i => "Unknown ssh tunnel " ++ i
  | .unknownK8s i => "Unknown k8s forward " ++ i
  | .portConflict p =>
      "Port " ++ toString p ++ " is already used by another forward"

/-- The ssh argument list built in `start` for an SSH-kind key. -/
def sshArgs (t : SshTunnel) : List String :=
  ["-v",
   "-o", "ExitOnForwardFailure=yes",
   "-o", "ServerAliveInterval=60",
   "-o", "ServerAliveCountMax=3",
   "-o", "ControlMaster=no",
   "-o", "ControlPersist=no",
   "-o", "StrictHostKeyChecking=no",
   "-NL", toString t.localPort ++ ":" ++ t.remoteHost ++ ":" ++ toString t.remotePort,
   t.sshHost]

/-- The kubectl argument list built in `start` for a k8s-kind key. -/
def k8sArgs (env : EnvironmentConfig) (f : K8sForward) : List String :=
  (match env.kubectlContext with
   | some c => ["--context", c]
   | none => []) ++
  ["-n", f.nspace,
   "port-forward", "services/" ++ f.serviceName,
   toString f.localPort ++ ":" ++ toString f.remotePort]

/-- Result of `pruneDeadByPort`: new state plus the effects (change
notifications fired, pids killed, port probes performed as
`(port, timeoutMs)` pairs). -/
structure PruneOut where
  state : ManagerState
  fires : Nat
  kills : List Nat
  probes : List (Nat × Nat)
deriving Repr, DecidableEq

/-- `pruneDeadByPort`: if some registry entry holds `port`, probe the
port (300 ms); when it is closed, kill the first holder, delete every
entry with that `localPort`, and fire the change notification. -/
def pruneDeadByPort (probe : Nat → Nat → Bool) (port : Nat)
    (s : ManagerState) : PruneOut :=
  match findByPort s.processes port with
  | none => ⟨s, 0, [], []⟩
  | some holder =>
      if probe port 300 then ⟨s, 0, [], [(port, 300)]⟩
      else
        ⟨{ s with
            processes := s.processes.filter (fun e => !(e.2.localPort == port)) },
          1, [holder.pid], [(port, 300)]⟩

instance {ε α : Type} [DecidableEq ε] [DecidableEq α] :
    DecidableEq (Except ε α)
  | .error e1, .error e2 => decidable_of_iff (e1 = e2) (by simp)
  | .error _, .ok _ => isFalse (by intro h; cases h)
  | .ok _, .error _ => isFalse (by intro h; cases h)
  | .ok a1, .ok a2 => decidable_of_iff (a1 = a2) (by simp)

/-- Result of `start`: new state, outcome, and effects.  `spawns`
records each `spawn(command, args)` call with the pid it produced. -/
structure StartOut where
  state : ManagerState
  result : Except StartError Unit
  fires : Nat
  spawns : List (String × List String × Nat)
  kills : List Nat
  probes : List (Nat × Nat)
deriving Repr, DecidableEq

/-- `spawnAndTrack`: spawn, register the `RunningProc` under the key's
string form with `startedAt := now`, and fire the change notification. -/
def spawnAndTrack (now : Nat) (key : ForwardKey) (command : String)
    (args : List String) (localPort : Nat) (s : ManagerState) : ManagerState :=
  { s with
      processes := setKey s.processes (keyToId key)
        ⟨key, s.nextPid, command, args, localPort, now⟩,
      nextPid := s.nextPid + 1 }

/-- The shared tail of `start` after the definition is resolved to a
command, argument list, and local port: the conflict check with one
prune-and-retry, then `spawnAndTrack` (both the ssh and the k8s branch
of the source run exactly this code with their own command and args). -/
def startPort (now : Nat) (probe : Nat → Nat → Bool) (key : ForwardKey)
    (command : String) (args : List String) (port : Nat)
    (s : ManagerState) : StartOut :=
  match findByPort s.processes port with
  | some _ =>
      let pr := pruneDeadByPort probe port s
      match findByPort pr.state.processes port with
      | some _ =>
          ⟨pr.state, .error (.portConflict port), pr.fires, [], pr.kills, pr.probes⟩
      | none =>
          ⟨spawnAndTrack now key command args port pr.state, .ok (),
            pr.fires + 1, [(command, args, pr.state.nextPid)], pr.kills, pr.probes⟩
  | none =>
      ⟨spawnAndTrack now key command args port s, .ok (),
        1, [(command, args, s.nextPid)], [], []⟩

/-- `start`.  The ssh-agent step (`addSshKeysIfPresent`) reads a config
field the declared `EnvironmentConfig` type does not have, so its key
list is always empty and it performs no effect; it is omitted. -/
def start (now : Nat) (probe : Nat → Nat → Bool) (key : ForwardKey)
    (s : ManagerState) : StartOut :=
  if isRunning key s then ⟨s, .ok (), 0, [], [], []⟩
  else
    match s.envs.find? (fun e => e.id == key.envId) with
    | none => ⟨s, .error (.unknownEnv key.envId), 0, [], [], []⟩
    | some env =>
        match key.kind with
        | .ssh =>
            match env.sshTunnels.find? (fun t => t.id == key.id) with
            | none => ⟨s, .error (.unknownSsh key.id), 0, [], [], []⟩
            | some item =>
                startPort now probe key "ssh" (sshArgs item) item.localPort s
        | .k8s =>
            match env.k8sForwards.find? (fun f => f.id == key.id) with
            | none => ⟨s, .error (.unknownK8s key.id), 0, [], [], []⟩
            | some item =>
                startPort now probe key "kubectl" (k8sArgs env item)
                  item.localPort s

/-- Result of the stop operations. -/
structure StopOut where
  state : ManagerState
  fires : Nat
  kills : List Nat
deriving Repr, DecidableEq

/-- `stop`: kill and drop the entry if present, firing once; otherwise
do nothing. -/
def stop (key : ForwardKey) (s : ManagerState) : StopOut :=
  match lookupKey s.processes (keyToId key) with
  | some p =>
      ⟨{ s with processes := eraseKey s.processes (keyToId key) }, 1, [p.pid]⟩
  | none => ⟨s, 0, []⟩

/-- `stopAllForEnv`: kill and drop every entry of the environment; the
change notification fires once, unconditionally. -/
def stopAllForEnv (envId : String) (s : ManagerState) : StopOut :=
  ⟨{ s with
      processes := s.processes.filter (fun e => !(e.2.key.envId == envId)) },
    1,
    (s.processes.filter (fun e => e.2.key.envId == envId)).map (fun e => e.2.pid)⟩

/-- `stopAll`: early return when the registry is empty; otherwise kill
everything, clear the registry, and fire once. -/
def stopAll (s : ManagerState) : StopOut :=
  if s.processes = [] then ⟨s, 0, []⟩
  else ⟨{ s with processes := [] }, 1, s.processes.map (fun e => e.2.pid)⟩

/-- `healthGraceMs`. -/
def healthGraceMs : Nat := 20000

/-- Accumulator of the `healthCheck` loop: the two live maps, the
`changed` flag, and the probes (`(entry id, port)`) and kills so far. -/
structure HCAcc where
  processes : List (String × RunningProc)
  counts : List (String × Nat)
  changed : Bool
  probes : List (String × Nat)
  kills : List Nat
deriving Repr, DecidableEq

/-- One iteration of the `healthCheck` loop body for entry `e`. -/
def hcStep (now : Nat) (exitCode : Nat → Option Int)
    (probe : Nat → Nat → Bool) (acc : HCAcc) (e : String × RunningProc) :
    HCAcc :=
  if (exitCode e.2.pid).isSome then
    { acc with
        processes := eraseKey acc.processes e.1,
        counts := eraseKey acc.counts e.1,
        changed := true }
  else if now - e.2.startedAt < healthGraceMs then acc
  else
    let acc1 := { acc with probes := acc.probes ++ [(e.1, e.2.localPort)] }
    if probe e.2.localPort 1200 then
      { acc1 with counts := eraseKey acc1.counts e.1 }
    else
      let failures := (lookupKey acc1.counts e.1).getD 0 + 1
      let acc2 := { acc1 with counts := setKey acc1.counts e.1 failures }
      if 3 ≤ failures then
        { acc2 with
            processes := eraseKey acc2.processes e.1,
            counts := eraseKey acc2.counts e.1,
            kills := acc2.kills ++ [e.2.pid],
            changed := true }
      else acc2

/-- The `healthCheck` loop over the snapshot of registry entries. -/
def hcGo (now : Nat) (exitCode : Nat → Option Int)
    (probe : Nat → Nat → Bool) :
    List (String × RunningProc) → HCAcc → HCAcc
  | [], acc => acc
  | e :: rest, acc => hcGo now exitCode probe rest (hcStep now exitCode probe acc e)

/-- Result of `healthCheck`: new state, whether the single end-of-sweep
change notification fired, and the probes/kills performed. -/
structure HCOut where
  state : ManagerState
  fired : Bool
  probes : List (String × Nat)
  kills : List Nat
deriving Repr, DecidableEq

/-- `healthCheck`: sweep every registry entry; drop exited processes at
once; skip the port probe inside the 20 s grace window; otherwise probe
with a 1.2 s timeout, resetting the failure counter on success and
evicting (kill + remove + clear counter) at 3 consecutive failures.
Fires the change notification once iff the sweep changed anything. -/
def healthCheck (now : Nat) (exitCode : Nat → Option Int)
    (probe : Nat → Nat → Bool) (s : ManagerState) : HCOut :=
  let acc := hcGo now exitCode probe s.processes
    ⟨s.processes, s.portFailureCounts, false, [], []⟩
  ⟨{ s with processes := acc.processes, portFailureCounts := acc.counts },
    acc.changed, acc.probes, acc.kills⟩

/-- Current consecutive-failure count of a registry entry id. -/
def failCount (s : ManagerState) (id : String) : Nat :=
  (lookupKey s.portFailureCounts id).getD 0

/-! ### `validateConfigDuplicates` -/

/-- The `add` closure: append the label to the port's group (in place
when the port is already a key, appended otherwise — `Map.set`). -/
def addLabel : List (Nat × List String) → Nat → String → List (Nat × List String)
  | [], p, l => [(p, [l])]
  | (q, ls) :: rest, p, l =>
      if q = p then (p, ls ++ [l]) :: rest else (q, ls) :: addLabel rest p l

/-- Port lookup in the `seen` map. -/
def lookupPort : List (Nat × List String) → Nat → Option (List String)
  | [], _ => none
  | (q, ls) :: rest, p => if q = p then some ls else lookupPort rest p

/-- `labels.join(', ')`. -/
def joinComma : List String → String
  | [] => ""
  | [x] => x
  | x :: y :: rest => x ++ ", " ++ joinComma (y :: rest)

/-- The `seen` map built for one environment: ssh tunnels first, then
k8s forwards, grouped by `localPort` in first-occurrence order. -/
def envSeen (env : EnvironmentConfig) : List (Nat × List String) :=
  let s1 := env.sshTunnels.foldl
    (fun acc t => addLabel acc t.localPort ("ssh:" ++ t.id)) []
  env.k8sForwards.foldl
    (fun acc f => addLabel acc f.localPort ("k8s:" ++ f.id)) s1

/-- The diagnostic line pushed for a duplicated port. -/
def dupLine (name : String) (port : Nat) (labels : List String) : String :=
  "Env " ++ name ++ ": localPort " ++ toString port ++ " used by " ++
    joinComma labels

/-- The loop over `seen.entries()` that pushes one diagnostic per port
with more than one label. -/
def collectErrors (name : String) (seen : List (Nat × List String))
    (errs : List String) : List String :=
  seen.foldl
    (fun es e => if 1 < e.2.length then es ++ [dupLine name e.1 e.2] else es)
    errs

/-- `validateConfigDuplicates` as a function of the configuration. -/
def validateConfigDuplicates (envs : List EnvironmentConfig) : List String :=
  envs.foldl (fun errs env => collectErrors env.name (envSeen env) errs) []

/-- The method on the supervisor state (it reads only `this.envs`). -/
def validateDuplicatesOf (s : ManagerState) : List String :=
  validateConfigDuplicates s.envs

/-! ### Substring test, for claims about what an error message names -/

/-- Char-list prefix test. -/
def chStarts : List Char → List Char → Bool
  | [], _ => true
  | _ :: _, [] => false
  | c :: cs, d :: ds => c = d && chStarts cs ds

/-- Char-list infix test. -/
def chInside (needle : List Char) : List Char → Bool
  | [] => chStarts needle []
  | d :: ds => chStarts needle (d :: ds) || chInside needle ds

/-- Whether `needle` occurs in `hay`. -/
def strContains (hay needle : String) : Bool :=
  chInside needle.data hay.data

/-- Resolution of a key against the configuration: the environment
lookup and the kind-directed definition lookup performed at the top of
`start`, returning the command, argument list and local port the launch
would use. -/
def resolveCmd (envs : List EnvironmentConfig) (key : ForwardKey) :
    Option (String × List String × Nat) :=
  match envs.find? (fun e => e.id == key.envId) with
  | none => none
  | some env =>
      match key.kind with
      | .ssh =>
          (env.sshTunnels.find? (fun t => t.id == key.id)).map
            (fun t => ("ssh", sshArgs t, t.localPort))
      | .k8s =>
          (env.k8sForwards.find? (fun f => f.id == key.id)).map
            (fun f => ("kubectl", k8sArgs env f, f.localPort))

/-! ### Concrete sample data for witnesses and counterexamples -/

/-- Two tunnels of one environment declaring the same `localPort`. -/
def sampleTunnelA : SshTunnel := ⟨"dbx", "db", 3306, "10.0.0.1", 3306, "stg-host"⟩

def sampleTunnelB : SshTunnel :=
  ⟨"cache", "cache", 3306, "10.0.0.2", 6379, "stg-host"⟩

def sampleEnv : EnvironmentConfig :=
  ⟨"stg", "Stg", none, [sampleTunnelA, sampleTunnelB], []⟩

def sampleState : ManagerState := ⟨[], [], [sampleEnv], 0⟩

def keyA : ForwardKey := ⟨"stg", .ssh, "dbx"⟩

def keyB : ForwardKey := ⟨"stg", .ssh, "cache"⟩

/-- A probe oracle reporting every port open. -/
def liveProbe : Nat → Nat → Bool := fun _ _ => true

/-- A probe oracle reporting every port closed. -/
def deadProbe : Nat → Nat → Bool := fun _ _ => false

/-- An exit oracle under which no process has exited. -/
def noExit : Nat → Option Int := fun _ => none

/-- A registry entry for `keyA`, started at time 0. -/
def sampleRun : RunningProc := ⟨keyA, 7, "ssh", sshArgs sampleTunnelA, 3306, 0⟩

/-- A state with `keyA` running and already at 2 consecutive failures. -/
def healthState : ManagerState :=
  ⟨[(keyToId keyA, sampleRun)], [(keyToId keyA, 2)], [sampleEnv], 8⟩

/-- All forward definitions of an environment as `(localPort, label)`
pairs, in the order `validateConfigDuplicates` visits them. -/
def envLabels (env : EnvironmentConfig) : List (Nat × String) :=
  env.sshTunnels.map (fun t => (t.localPort, "ssh:" ++ t.id)) ++
    env.k8sForwards.map (fun f => (f.localPort, "k8s:" ++ f.id))

/-- Labels of every definition of the environment using `port`. -/
def labelsFor (env : EnvironmentConfig) (port : Nat) : List String :=
  ((envLabels env).filter (fun e => e.1 == port)).map Prod.snd

/-- The ports of a `seen` map, in order. -/
def portKeys (seen : List (Nat × List String)) : List Nat :=
  seen.map Prod.fst

end LDF

/-! ## Lemmas about the map operations -/

namespace LDF

theorem lookupKey_setKey_self {α : Type} (m : List (String × α)) (k : String)
    (v : α) : lookupKey (setKey m k v) k = some v := by
  induction m with
  | nil => simp [setKey, lookupKey]
  | cons e rest ih =>
      obtain ⟨k1, v1⟩ := e
      by_cases h : k1 = k <;> simp [setKey, lookupKey, h, ih]

theorem lookupKey_setKey_ne {α : Type} (m : List (String × α)) {k k' : String}
    (v : α) (h : k' ≠ k) :
    lookupKey (setKey m k v) k' = lookupKey m k' := by
  induction m with
  | nil => simp [setKey, lookupKey, Ne.symm h]
  | cons e rest ih =>
      obtain ⟨k1, v1⟩ := e
      by_cases h1 : k1 = k
      · subst h1
        simp [setKey, lookupKey, Ne.symm h]
      · by_cases h2 : k1 = k' <;> simp [setKey, lookupKey, h1, h2, ih, h, Ne.symm h]

theorem eraseKey_cons_self {α : Type} (k : String) (v : α)
    (rest : List (String × α)) :
    eraseKey ((k, v) :: rest) k = eraseKey rest k := by
  simp [eraseKey, List.filter_cons]

theorem eraseKey_cons_ne {α : Type} {k1 k : String} (v : α)
    (rest : List (String × α)) (h : k1 ≠ k) :
    eraseKey ((k1, v) :: rest) k = (k1, v) :: eraseKey rest k := by
  simp [eraseKey, List.filter_cons, h]

theorem lookupKey_eraseKey_self {α : Type} (m : List (String × α))
    (k : String) : lookupKey (eraseKey m k) k = none := by
  induction m with
  | nil => simp [eraseKey, lookupKey]
  | cons e rest ih =>
      obtain ⟨k1, v1⟩ := e
      by_cases h : k1 = k
      · subst h
        rw [eraseKey_cons_self]
        exact ih
      · rw [eraseKey_cons_ne _ _ h, lookupKey, if_neg h]
        exact ih

theorem lookupKey_eraseKey_ne {α : Type} (m : List (String × α))
    {k k' : String} (h : k' ≠ k) :
    lookupKey (eraseKey m k) k' = lookupKey m k' := by
  induction m with
  | nil => simp [eraseKey, lookupKey]
  | cons e rest ih =>
      obtain ⟨k1, v1⟩ := e
      by_cases h1 : k1 = k
      · subst h1
        rw [eraseKey_cons_self, lookupKey, if_neg (Ne.symm h)]
        exact ih
      · rw [eraseKey_cons_ne _ _ h1, lookupKey, lookupKey]
        by_cases h2 : k1 = k' <;> simp [h2, ih]

theorem setKey_eq_append {α : Type} {m : List (String × α)} {k : String}
    (v : α) (h : lookupKey m k = none) : setKey m k v = m ++ [(k, v)] := by
  induction m with
  | nil => simp [setKey]
  | cons e rest ih =>
      obtain ⟨k1, v1⟩ := e
      by_cases h1 : k1 = k
      · simp [lookupKey, h1] at h
      · simp [lookupKey, h1] at h
        simp [setKey, h1, ih h]

theorem lookupKey_append_none {α : Type} {m1 : List (String × α)}
    (m2 : List (String × α)) {k : String} (h : lookupKey m1 k = none) :
    lookupKey (m1 ++ m2) k = lookupKey m2 k := by
  induction m1 with
  | nil => simp
  | cons e rest ih =>
      obtain ⟨k1, v1⟩ := e
      by_cases h1 : k1 = k
      · simp [lookupKey, h1] at h
      · simp [lookupKey, h1] at h ⊢
        exact ih h

theorem lookupKey_filter_none {α : Type} {m : List (String × α)} {k : String}
    (pred : String × α → Bool) (h : lookupKey m k = none) :
    lookupKey (m.filter pred) k = none := by
  induction m with
  | nil => simp [lookupKey]
  | cons e rest ih =>
      obtain ⟨k1, v1⟩ := e
      by_cases h1 : k1 = k
      · simp [lookupKey, h1] at h
      · simp [lookupKey, h1] at h
        by_cases h2 : pred (k1, v1) <;> simp [List.filter, h2, lookupKey, h1, ih h]

theorem countP_eq_zero_of_not_mem_keys {α : Type} {m : List (String × α)}
    {k : String} (h : k ∉ keysOf m) :
    m.countP (fun e => e.1 == k) = 0 := by
  rw [List.countP_eq_zero]
  intro e he hk
  exact h (List.mem_map.mpr ⟨e, he, by simpa using hk⟩)

theorem countP_eq_one_of_lookup {α : Type} {m : List (String × α)}
    {k : String} {v : α} (hnd : (keysOf m).Nodup)
    (h : lookupKey m k = some v) :
    m.countP (fun e => e.1 == k) = 1 := by
  induction m with
  | nil => simp [lookupKey] at h
  | cons e rest ih =>
      obtain ⟨k1, v1⟩ := e
      rw [keysOf, List.map_cons, List.nodup_cons] at hnd
      by_cases h1 : k1 = k
      · subst h1
        rw [List.countP_cons_of_pos _ _ (by simp)]
        have : rest.countP (fun e => e.1 == k1) = 0 :=
          countP_eq_zero_of_not_mem_keys hnd.1
        omega
      · simp [lookupKey, h1] at h
        rw [List.countP_cons_of_neg _ _ (by simp [h1])]
        exact ih hnd.2 h

theorem findByPort_eq_none_iff (m : List (String × RunningProc)) (port : Nat) :
    findByPort m port = none ↔ ∀ e ∈ m, e.2.localPort ≠ port := by
  induction m with
  | nil => simp [findByPort]
  | cons e rest ih =>
      obtain ⟨k1, p1⟩ := e
      by_cases h : p1.localPort = port <;> simp [findByPort, h, ih]

theorem findByPort_append_left_none {m1 : List (String × RunningProc)}
    (m2 : List (String × RunningProc)) {port : Nat}
    (h : ∀ e ∈ m1, e.2.localPort ≠ port) :
    findByPort (m1 ++ m2) port = findByPort m2 port := by
  induction m1 with
  | nil => simp
  | cons e rest ih =>
      obtain ⟨k1, p1⟩ := e
      have h1 : p1.localPort ≠ port := h (k1, p1) (by simp)
      rw [List.cons_append, findByPort, if_neg h1]
      exact ih (fun e he => h e (by simp [he]))

theorem findByPort_filter_self (m : List (String × RunningProc)) (port : Nat) :
    findByPort (m.filter (fun e => !(e.2.localPort == port))) port = none := by
  rw [findByPort_eq_none_iff]
  intro e he
  have := (List.mem_filter.mp he).2
  simpa using this

theorem isRunning_eq_false_iff (key : ForwardKey) (s : ManagerState) :
    isRunning key s = false ↔ lookupKey s.processes (keyToId key) = none := by
  rw [isRunning]
  cases lookupKey s.processes (keyToId key) <;> simp

end LDF

/-! ## Lemmas about `start` -/

namespace LDF

theorem start_eq_startPort {s : ManagerState} {key : ForwardKey}
    {cmd : String} {args : List String} {port : Nat}
    (now : Nat) (probe : Nat → Nat → Bool)
    (hrun : isRunning key s = false)
    (hres : resolveCmd s.envs key = some (cmd, args, port)) :
    start now probe key s = startPort now probe key cmd args port s := by
  cases hfind : s.envs.find? (fun e => e.id == key.envId) with
  | none => simp [resolveCmd, hfind] at hres
  | some env =>
      cases hkind : key.kind with
      | ssh =>
          cases hitem : env.sshTunnels.find? (fun t => t.id == key.id) with
          | none => simp [resolveCmd, hfind, hkind, hitem] at hres
          | some item =>
              simp only [resolveCmd, hfind, hkind, hitem, Option.map_some',
                Option.some.injEq, Prod.mk.injEq] at hres
              obtain ⟨rfl, rfl, rfl⟩ := hres
              simp [start, hfind, hkind, hitem, hrun]
      | k8s =>
          cases hitem : env.k8sForwards.find? (fun f => f.id == key.id) with
          | none => simp [resolveCmd, hfind, hkind, hitem] at hres
          | some item =>
              simp only [resolveCmd, hfind, hkind, hitem, Option.map_some',
                Option.some.injEq, Prod.mk.injEq] at hres
              obtain ⟨rfl, rfl, rfl⟩ := hres
              simp [start, hfind, hkind, hitem, hrun]

theorem startPort_free {s : ManagerState} {port : Nat}
    (now : Nat) (probe : Nat → Nat → Bool) (key : ForwardKey)
    (cmd : String) (args : List String)
    (h : findByPort s.processes port = none) :
    startPort now probe key cmd args port s =
      ⟨spawnAndTrack now key cmd args port s, .ok (), 1,
        [(cmd, args, s.nextPid)], [], []⟩ := by
  rw [startPort, h]

theorem startPort_live {s : ManagerState} {port : Nat} {holder : RunningProc}
    {probe : Nat → Nat → Bool} (now : Nat) (key : ForwardKey)
    (cmd : String) (args : List String)
    (h : findByPort s.processes port = some holder)
    (hp : probe port 300 = true) :
    startPort now probe key cmd args port s =
      ⟨s, .error (.portConflict port), 0, [], [], [(port, 300)]⟩ := by
  rw [startPort, h]
  simp only [pruneDeadByPort, h, hp, if_true]

theorem startPort_dead {s : ManagerState} {port : Nat} {holder : RunningProc}
    {probe : Nat → Nat → Bool} (now : Nat) (key : ForwardKey)
    (cmd : String) (args : List String)
    (h : findByPort s.processes port = some holder)
    (hp : probe port 300 = false) :
    startPort now probe key cmd args port s =
      ⟨spawnAndTrack now key cmd args port
          { s with processes :=
              s.processes.filter (fun e => !(e.2.localPort == port)) },
        .ok (), 2, [(cmd, args, s.nextPid)], [holder.pid], [(port, 300)]⟩ := by
  rw [startPort, h]
  simp only [pruneDeadByPort, h, hp, if_false, Bool.false_eq_true]
  rw [findByPort_filter_self]

/-- Shape of the state after a successful `start` of a not-yet-running,
resolvable key: the new entry is appended at the end, every surviving
older entry has a different `localPort`, and entries absent before are
still absent. -/
theorem start_ok_shape {s : ManagerState} {key : ForwardKey}
    {cmd : String} {args : List String} {port : Nat}
    (now : Nat) (probe : Nat → Nat → Bool)
    (hrun : isRunning key s = false)
    (hres : resolveCmd s.envs key = some (cmd, args, port))
    (hok : (start now probe key s).result = .ok ()) :
    ∃ base,
      (start now probe key s).state.processes =
        base ++ [(keyToId key, ⟨key, s.nextPid, cmd, args, port, now⟩)] ∧
      (∀ e ∈ base, e.2.localPort ≠ port) ∧
      (∀ id, lookupKey s.processes id = none → lookupKey base id = none) ∧
      (start now probe key s).state.envs = s.envs := by
  have hlk : lookupKey s.processes (keyToId key) = none :=
    (isRunning_eq_false_iff key s).mp hrun
  rw [start_eq_startPort now probe hrun hres] at hok ⊢
  cases hfp : findByPort s.processes port with
  | none =>
      rw [startPort_free now probe key cmd args hfp]
      refine ⟨s.processes, ?_, ?_, ?_, rfl⟩
      · simp [spawnAndTrack, setKey_eq_append _ hlk]
      · exact (findByPort_eq_none_iff s.processes port).mp hfp
      · intro id h; exact h
  | some holder =>
      cases hp : probe port 300 with
      | true => rw [startPort_live now key cmd args hfp hp] at hok; cases hok
      | false =>
          rw [startPort_dead now key cmd args hfp hp]
          refine ⟨s.processes.filter (fun e => !(e.2.localPort == port)),
            ?_, ?_, ?_, rfl⟩
          · have hlk2 : lookupKey
                (s.processes.filter (fun e => !(e.2.localPort == port)))
                (keyToId key) = none :=
              lookupKey_filter_none _ hlk
            simp [spawnAndTrack, setKey_eq_append _ hlk2]
          · intro e he
            have := (List.mem_filter.mp he).2
            simpa using this
          · intro id h
            exact lookupKey_filter_none _ h

end LDF

/-! ## String lemmas: substring occurrence and key-string injectivity -/

namespace LDF

theorem chStarts_refl_append (n l : List Char) : chStarts n (n ++ l) = true := by
  induction n with
  | nil => rfl
  | cons c cs ih => simp [chStarts, ih]

theorem chInside_of_chStarts {n l : List Char} (h : chStarts n l = true) :
    chInside n l = true := by
  cases l with
  | nil => exact h
  | cons d ds => simp [chInside, h]

theorem chInside_append_mid (l1 n l2 : List Char) :
    chInside n (l1 ++ n ++ l2) = true := by
  induction l1 with
  | nil =>
      simp only [List.nil_append]
      exact chInside_of_chStarts (chStarts_refl_append n l2)
  | cons d ds ih =>
      simp only [List.cons_append, chInside, Bool.or_eq_true]
      exact Or.inr ih

/-- A port-conflict message always names the conflicting port. -/
theorem portConflict_message_names_port (port : Nat) :
    strContains (StartError.message (.portConflict port)) (toString port) =
      true := by
  rw [StartError.message, strContains, String.data_append, String.data_append]
  exact chInside_append_mid _ _ _

theorem append_cons_split {α : Type} [DecidableEq α] {c : α} :
    ∀ {a1 a2 r1 r2 : List α}, a1 ++ c :: r1 = a2 ++ c :: r2 →
      c ∉ a1 → c ∉ a2 → a1 = a2 ∧ r1 = r2 := by
  intro a1
  induction a1 with
  | nil =>
      intro a2 r1 r2 h h1 h2
      cases a2 with
      | nil => simpa using h
      | cons d ds =>
          simp only [List.nil_append, List.cons_append, List.cons.injEq] at h
          exact absurd (h.1 ▸ List.mem_cons_self d ds) h2
  | cons d ds ih =>
      intro a2 r1 r2 h h1 h2
      cases a2 with
      | nil =>
          simp only [List.nil_append, List.cons_append, List.cons.injEq] at h
          exact absurd (h.1.symm ▸ List.mem_cons_self d ds) h1
      | cons d2 ds2 =>
          simp only [List.cons_append, List.cons.injEq] at h
          obtain ⟨rfl, h⟩ := h
          have hr := ih h (fun hm => h1 (List.mem_cons_of_mem _ hm))
            (fun hm => h2 (List.mem_cons_of_mem _ hm))
          exact ⟨by rw [hr.1], hr.2⟩

theorem colon_not_mem_kindStr (k : Kind) : (':' : Char) ∉ (kindStr k).data := by
  cases k <;> decide

theorem kindStr_inj {k1 k2 : Kind} (h : kindStr k1 = kindStr k2) : k1 = k2 := by
  cases k1 <;> cases k2 <;> first | rfl | (exfalso; exact absurd h (by decide))

theorem keyToId_data (key : ForwardKey) :
    (keyToId key).data =
      key.envId.data ++ ':' :: ((kindStr key.kind).data ++ ':' :: key.id.data) := by
  rw [keyToId, String.data_append, String.data_append, String.data_append,
    String.data_append]
  have hc : (":" : String).data = [':'] := rfl
  rw [hc]
  simp [List.append_assoc]

end LDF

/-! ## Lemmas about `healthCheck` -/

namespace LDF

/-- Processing an entry with another id leaves this id's registry entry,
failure counter, and probe record untouched, and only adds kills. -/
theorem hcStep_frame (now : Nat) (exitCode : Nat → Option Int)
    (probe : Nat → Nat → Bool) (acc : HCAcc) (e : String × RunningProc)
    {id : String} (hne : e.1 ≠ id) :
    lookupKey (hcStep now exitCode probe acc e).processes id =
      lookupKey acc.processes id ∧
    lookupKey (hcStep now exitCode probe acc e).counts id =
      lookupKey acc.counts id ∧
    (∀ port, (id, port) ∈ (hcStep now exitCode probe acc e).probes ↔
      (id, port) ∈ acc.probes) ∧
    (∀ pid, pid ∈ acc.kills → pid ∈ (hcStep now exitCode probe acc e).kills) := by
  have hid : id ≠ e.1 := Ne.symm hne
  by_cases h1 : (exitCode e.2.pid).isSome
  · refine ⟨?_, ?_, ?_, ?_⟩ <;>
      simp [hcStep, h1, lookupKey_eraseKey_ne _ hid]
  · by_cases h2 : now - e.2.startedAt < healthGraceMs
    · refine ⟨?_, ?_, ?_, ?_⟩ <;> simp [hcStep, h1, h2]
    · by_cases h3 : probe e.2.localPort 1200
      · refine ⟨?_, ?_, ?_, ?_⟩ <;>
          simp [hcStep, h1, h2, h3, lookupKey_eraseKey_ne _ hid, Prod.ext_iff, hid]
      · by_cases h4 : 3 ≤ (lookupKey acc.counts e.1).getD 0 + 1
        · refine ⟨?_, ?_, ?_, ?_⟩
          · simp [hcStep, h1, h2, h3, h4, lookupKey_eraseKey_ne _ hid,
              lookupKey_setKey_ne _ _ hid]
          · simp [hcStep, h1, h2, h3, h4, lookupKey_eraseKey_ne _ hid,
              lookupKey_setKey_ne _ _ hid]
          · intro port
            simp [hcStep, h1, h2, h3, h4, Prod.ext_iff, hid]
          · intro pid hp
            simp only [hcStep, h1, h2, h3, h4]
            simp [hp]
        · refine ⟨?_, ?_, ?_, ?_⟩
          · simp [hcStep, h1, h2, h3, h4]
          · simp [hcStep, h1, h2, h3, h4, lookupKey_setKey_ne _ _ hid]
          · intro port
            simp [hcStep, h1, h2, h3, h4, Prod.ext_iff, hid]
          · intro pid hp
            simp [hcStep, h1, h2, h3, h4, hp]

theorem hcGo_append (now : Nat) (exitCode : Nat → Option Int)
    (probe : Nat → Nat → Bool) (l1 l2 : List (String × RunningProc))
    (acc : HCAcc) :
    hcGo now exitCode probe (l1 ++ l2) acc =
      hcGo now exitCode probe l2 (hcGo now exitCode probe l1 acc) := by
  induction l1 generalizing acc with
  | nil => rfl
  | cons e rest ih => rw [List.cons_append, hcGo, hcGo, ih]

/-- Processing a run of entries none of which has this id leaves this
id's registry entry, counter, and probe record untouched, and only adds
kills. -/
theorem hcGo_frame (now : Nat) (exitCode : Nat → Option Int)
    (probe : Nat → Nat → Bool) (l : List (String × RunningProc))
    (acc : HCAcc) {id : String} (hnot : id ∉ l.map Prod.fst) :
    lookupKey (hcGo now exitCode probe l acc).processes id =
      lookupKey acc.processes id ∧
    lookupKey (hcGo now exitCode probe l acc).counts id =
      lookupKey acc.counts id ∧
    (∀ port, (id, port) ∈ (hcGo now exitCode probe l acc).probes ↔
      (id, port) ∈ acc.probes) ∧
    (∀ pid, pid ∈ acc.kills → pid ∈ (hcGo now exitCode probe l acc).kills) := by
  induction l generalizing acc with
  | nil => exact ⟨rfl, rfl, fun _ => Iff.rfl, fun _ h => h⟩
  | cons e rest ih =>
      rw [List.map_cons, List.mem_cons] at hnot
      push_neg at hnot
      have hstep := hcStep_frame now exitCode probe acc e (Ne.symm hnot.1)
      have hrest := ih (hcStep now exitCode probe acc e) hnot.2
      rw [hcGo]
      exact ⟨hrest.1.trans hstep.1, hrest.2.1.trans hstep.2.1,
        fun port => (hrest.2.2.1 port).trans (hstep.2.2.1 port),
        fun pid h => hrest.2.2.2 pid (hstep.2.2.2 pid h)⟩

theorem lookupKey_decomp {α : Type} {m : List (String × α)} {k : String}
    {v : α} (h : lookupKey m k = some v) :
    ∃ l1 l2, m = l1 ++ (k, v) :: l2 ∧ k ∉ keysOf l1 := by
  induction m with
  | nil => simp [lookupKey] at h
  | cons e rest ih =>
      obtain ⟨k1, v1⟩ := e
      by_cases h1 : k1 = k
      · subst h1
        rw [lookupKey, if_pos rfl] at h
        obtain rfl := Option.some.inj h
        exact ⟨[], rest, rfl, by simp [keysOf]⟩
      · rw [lookupKey, if_neg h1] at h
        obtain ⟨l1, l2, hm, hk⟩ := ih h
        refine ⟨(k1, v1) :: l1, l2, by simp [hm], ?_⟩
        rw [keysOf, List.map_cons, List.mem_cons]
        push_neg
        exact ⟨Ne.symm h1, hk⟩

theorem not_mem_keys_right {α : Type} {l1 l2 : List (String × α)}
    {k : String} {v : α}
    (hnd : (keysOf (l1 ++ (k, v) :: l2)).Nodup) : k ∉ keysOf l2 := by
  rw [keysOf, List.map_append, List.map_cons, List.nodup_middle,
    List.nodup_cons] at hnd
  intro h
  exact hnd.1 (List.mem_append_right _ h)

/-- Fate of one live (not exited) registry entry under a single
`healthCheck` sweep, by case on its age and its port probe. -/
theorem healthCheck_entry (now : Nat) (exitCode : Nat → Option Int)
    (probe : Nat → Nat → Bool) (s : ManagerState) {id : String}
    {p : RunningProc}
    (hnd : (keysOf s.processes).Nodup)
    (hin : lookupKey s.processes id = some p)
    (hAlive : exitCode p.pid = none) :
    (now - p.startedAt < healthGraceMs →
       lookupKey (healthCheck now exitCode probe s).state.processes id =
         some p ∧
       lookupKey (healthCheck now exitCode probe s).state.portFailureCounts id =
         lookupKey s.portFailureCounts id ∧
       ∀ port, (id, port) ∉ (healthCheck now exitCode probe s).probes) ∧
    (¬ now - p.startedAt < healthGraceMs →
       (probe p.localPort 1200 = true →
          lookupKey (healthCheck now exitCode probe s).state.processes id =
            some p ∧
          lookupKey
            (healthCheck now exitCode probe s).state.portFailureCounts id =
            none ∧
          (id, p.localPort) ∈ (healthCheck now exitCode probe s).probes) ∧
       (probe p.localPort 1200 = false →
          (failCount s id + 1 < 3 →
             lookupKey (healthCheck now exitCode probe s).state.processes id =
               some p ∧
             lookupKey
               (healthCheck now exitCode probe s).state.portFailureCounts id =
               some (failCount s id + 1)) ∧
          (3 ≤ failCount s id + 1 →
             lookupKey (healthCheck now exitCode probe s).state.processes id =
               none ∧
             lookupKey
               (healthCheck now exitCode probe s).state.portFailureCounts id =
               none ∧
             p.pid ∈ (healthCheck now exitCode probe s).kills))) := by
  obtain ⟨l1, l2, hm, hno1⟩ := lookupKey_decomp hin
  have hnd' := hnd
  rw [hm] at hnd'
  have hno2 : id ∉ keysOf l2 := not_mem_keys_right hnd'
  have hout : healthCheck now exitCode probe s =
      ⟨{ s with
          processes := (hcGo now exitCode probe s.processes
            ⟨s.processes, s.portFailureCounts, false, [], []⟩).processes,
          portFailureCounts := (hcGo now exitCode probe s.processes
            ⟨s.processes, s.portFailureCounts, false, [], []⟩).counts },
        (hcGo now exitCode probe s.processes
          ⟨s.processes, s.portFailureCounts, false, [], []⟩).changed,
        (hcGo now exitCode probe s.processes
          ⟨s.processes, s.portFailureCounts, false, [], []⟩).probes,
        (hcGo now exitCode probe s.processes
          ⟨s.processes, s.portFailureCounts, false, [], []⟩).kills⟩ := rfl
  rw [hout]
  simp only
  rw [hm, hcGo_append, hcGo]
  have hF1 := hcGo_frame now exitCode probe l1
    ⟨l1 ++ (id, p) :: l2, s.portFailureCounts, false, [], []⟩ hno1
  have haccP : lookupKey (hcGo now exitCode probe l1
      ⟨l1 ++ (id, p) :: l2, s.portFailureCounts, false, [], []⟩).processes id =
      some p := by
    rw [hF1.1]
    rw [← hm]
    exact hin
  have haccC : lookupKey (hcGo now exitCode probe l1
      ⟨l1 ++ (id, p) :: l2, s.portFailureCounts, false, [], []⟩).counts id =
      lookupKey s.portFailureCounts id := hF1.2.1
  have haccPr : ∀ port, ((id, port) ∈ (hcGo now exitCode probe l1
      ⟨l1 ++ (id, p) :: l2, s.portFailureCounts, false, [], []⟩).probes) ↔
      False := by
    intro port
    rw [hF1.2.2.1 port]
    simp
  set accM := hcGo now exitCode probe l1
    ⟨l1 ++ (id, p) :: l2, s.portFailureCounts, false, [], []⟩ with haccM
  constructor
  · -- within the grace window: the entry is skipped entirely
    intro h2
    have hstep : hcStep now exitCode probe accM (id, p) = accM := by
      simp [hcStep, hAlive, h2]
    rw [hstep]
    have hF2 := hcGo_frame now exitCode probe l2 accM hno2
    refine ⟨hF2.1.trans haccP, hF2.2.1.trans haccC, ?_⟩
    intro port hmem
    exact (haccPr port).mp ((hF2.2.2.1 port).mp hmem)
  · intro h2
    constructor
    · -- probe succeeds: stays, counter cleared
      intro h3
      have hstep : hcStep now exitCode probe accM (id, p) =
          ⟨accM.processes, eraseKey accM.counts id, accM.changed,
            accM.probes ++ [(id, p.localPort)], accM.kills⟩ := by
        simp [hcStep, hAlive, h2, h3]
      rw [hstep]
      have hF2 := hcGo_frame now exitCode probe l2
        ⟨accM.processes, eraseKey accM.counts id, accM.changed,
          accM.probes ++ [(id, p.localPort)], accM.kills⟩ hno2
      refine ⟨hF2.1.trans haccP, ?_, ?_⟩
      · rw [hF2.2.1]
        exact lookupKey_eraseKey_self _ _
      · rw [hF2.2.2.1 p.localPort]
        simp
    · intro h3
      constructor
      · -- below the threshold: stays, counter incremented
        intro h4
        have h4' : ¬ 3 ≤ (lookupKey s.portFailureCounts id).getD 0 + 1 := by
          simp only [failCount] at h4
          omega
        have hstep : hcStep now exitCode probe accM (id, p) =
            ⟨accM.processes, setKey accM.counts id (failCount s id + 1),
              accM.changed, accM.probes ++ [(id, p.localPort)], accM.kills⟩ := by
          simp [hcStep, hAlive, h2, h3, haccC, failCount, h4']
        rw [hstep]
        have hF2 := hcGo_frame now exitCode probe l2
          ⟨accM.processes, setKey accM.counts id (failCount s id + 1),
            accM.changed, accM.probes ++ [(id, p.localPort)], accM.kills⟩ hno2
        refine ⟨hF2.1.trans haccP, ?_⟩
        rw [hF2.2.1]
        exact lookupKey_setKey_self _ _ _
      · -- at the threshold: killed, removed, counter cleared
        intro h4
        have h4' : 3 ≤ (lookupKey s.portFailureCounts id).getD 0 + 1 := by
          simp only [failCount] at h4
          omega
        have hstep : hcStep now exitCode probe accM (id, p) =
            ⟨eraseKey accM.processes id,
              eraseKey (setKey accM.counts id (failCount s id + 1)) id, true,
              accM.probes ++ [(id, p.localPort)], accM.kills ++ [p.pid]⟩ := by
          simp [hcStep, hAlive, h2, h3, haccC, failCount, h4']
        rw [hstep]
        have hF2 := hcGo_frame now exitCode probe l2
          ⟨eraseKey accM.processes id,
            eraseKey (setKey accM.counts id (failCount s id + 1)) id, true,
            accM.probes ++ [(id, p.localPort)], accM.kills ++ [p.pid]⟩ hno2
        refine ⟨?_, ?_, ?_⟩
        · rw [hF2.1]
          exact lookupKey_eraseKey_self _ _
        · rw [hF2.2.1]
          exact lookupKey_eraseKey_self _ _
        · exact hF2.2.2.2 p.pid (by simp)

end LDF

/-! ## Lemmas about `validateConfigDuplicates` -/

namespace LDF

theorem lookupPort_addLabel_self (seen : List (Nat × List String)) (p : Nat)
    (l : String) :
    lookupPort (addLabel seen p l) p =
      some ((lookupPort seen p).getD [] ++ [l]) := by
  induction seen with
  | nil => simp [addLabel, lookupPort]
  | cons e rest ih =>
      obtain ⟨q, ls⟩ := e
      by_cases h : q = p <;> simp [addLabel, lookupPort, h, ih]

theorem lookupPort_addLabel_ne (seen : List (Nat × List String)) {p q : Nat}
    (l : String) (h : q ≠ p) :
    lookupPort (addLabel seen p l) q = lookupPort seen q := by
  induction seen with
  | nil => simp [addLabel, lookupPort, Ne.symm h]
  | cons e rest ih =>
      obtain ⟨q1, ls⟩ := e
      by_cases h1 : q1 = p
      · subst h1
        simp [addLabel, lookupPort, Ne.symm h, h]
      · by_cases h2 : q1 = q <;>
          simp [addLabel, lookupPort, h1, h2, ih, h, Ne.symm h]

/-- Grouping is exactly filtering: after folding `addLabel` over a list
of `(port, label)` pairs, the group of a port holds the base group plus
every label filed under that port, in order. -/
theorem lookupPort_foldl_addLabel (L : List (Nat × String))
    (acc : List (Nat × List String)) (p : Nat) :
    lookupPort (L.foldl (fun a e => addLabel a e.1 e.2) acc) p =
      if lookupPort acc p = none ∧ L.filter (fun e => e.1 == p) = [] then none
      else some ((lookupPort acc p).getD [] ++
        (L.filter (fun e => e.1 == p)).map Prod.snd) := by
  induction L generalizing acc with
  | nil => cases hl : lookupPort acc p <;> simp [hl]
  | cons e L ih =>
      rw [List.foldl_cons, ih]
      by_cases he : e.1 = p
      · rw [List.filter_cons_of_pos (by simp [he])]
        rw [he, lookupPort_addLabel_self]
        simp
      · rw [List.filter_cons_of_neg (by simp [he])]
        rw [lookupPort_addLabel_ne _ e.2 (Ne.symm he)]

theorem portKeys_addLabel (seen : List (Nat × List String)) (p : Nat)
    (l : String) :
    portKeys (addLabel seen p l) =
      if p ∈ portKeys seen then portKeys seen else portKeys seen ++ [p] := by
  induction seen with
  | nil => simp [addLabel, portKeys]
  | cons e rest ih =>
      obtain ⟨q, ls⟩ := e
      by_cases h : q = p
      · subst h
        simp [addLabel, portKeys]
      · rw [addLabel, if_neg h]
        have hpq : ¬ p = q := fun hx => h hx.symm
        by_cases h2 : p ∈ portKeys rest <;>
          (simp only [portKeys, List.map_cons] at ih ⊢
           rw [ih]
           simp only [portKeys] at h2
           simp [h2, hpq])

theorem nodup_portKeys_addLabel {seen : List (Nat × List String)}
    (p : Nat) (l : String) (h : (portKeys seen).Nodup) :
    (portKeys (addLabel seen p l)).Nodup := by
  rw [portKeys_addLabel]
  by_cases hm : p ∈ portKeys seen
  · simpa [hm] using h
  · simp only [hm, if_false]
    rw [List.nodup_append]
    refine ⟨h, List.nodup_singleton p, ?_⟩
    intro a ha hap
    have hap' : a = p := by simpa using hap
    exact hm (hap' ▸ ha)

theorem nodup_portKeys_foldl (L : List (Nat × String))
    (acc : List (Nat × List String)) (h : (portKeys acc).Nodup) :
    (portKeys (L.foldl (fun a e => addLabel a e.1 e.2) acc)).Nodup := by
  induction L generalizing acc with
  | nil => exact h
  | cons e L ih => exact ih _ (nodup_portKeys_addLabel e.1 e.2 h)

/-- The error-collecting loop appends exactly one line per group with
more than one label. -/
theorem collectErrors_eq (name : String) (seen : List (Nat × List String))
    (errs : List String) :
    collectErrors name seen errs =
      errs ++ (seen.filter (fun e => 1 < e.2.length)).map
        (fun e => dupLine name e.1 e.2) := by
  induction seen generalizing errs with
  | nil => simp [collectErrors]
  | cons e rest ih =>
      by_cases h : 1 < e.2.length
      · rw [collectErrors, List.foldl_cons, if_pos h,
          List.filter_cons_of_pos (by simp [h]), ← collectErrors]
        rw [ih]
        simp
      · rw [collectErrors, List.foldl_cons, if_neg h,
          List.filter_cons_of_neg (by simp [h]), ← collectErrors]
        exact ih errs

/-- The two definition loops of the source build the same `seen` map as
one pass over all `(port, label)` pairs. -/
theorem envSeen_eq_foldl (env : EnvironmentConfig) :
    envSeen env =
      (envLabels env).foldl (fun a e => addLabel a e.1 e.2) [] := by
  rw [envSeen, envLabels, List.foldl_append, List.foldl_map, List.foldl_map]

theorem lookupPort_envSeen (env : EnvironmentConfig) (p : Nat) :
    lookupPort (envSeen env) p =
      if labelsFor env p = [] then none else some (labelsFor env p) := by
  rw [envSeen_eq_foldl, lookupPort_foldl_addLabel, labelsFor]
  simp only [lookupPort, List.map_eq_nil_iff]
  by_cases h : (envLabels env).filter (fun e => e.1 == p) = [] <;> simp [h]

end LDF

/-! ## Claim theorems -/

namespace LDF

/-- C2: `start(k)` is idempotent — for a key already in the registry it
returns without error, spawns no process, fires no notification, leaves
the state untouched, and the registry holds exactly one entry for the
key. -/
theorem C2_start_idempotent (now : Nat) (probe : Nat → Nat → Bool)
    (k : ForwardKey) (s : ManagerState) (p : RunningProc)
    (hnd : (keysOf s.processes).Nodup)
    (h : lookupKey s.processes (keyToId k) = some p) :
    start now probe k s = ⟨s, .ok (), 0, [], [], []⟩ ∧
    s.processes.countP (fun e => e.1 == keyToId k) = 1 := by
  constructor
  · have hr : isRunning k s = true := by simp [isRunning, h]
    rw [start, if_pos hr]
  · exact countP_eq_one_of_lookup hnd h

theorem C2_start_idempotent_witness :
    start 5 liveProbe keyA healthState = ⟨healthState, .ok (), 0, [], [], []⟩ ∧
    healthState.processes.countP (fun e => e.1 == keyToId keyA) = 1 :=
  C2_start_idempotent 5 liveProbe keyA healthState sampleRun (by decide)
    (by decide)

/-- C3: every SSH-kind start that launches a process launches exactly
`ssh` with the argument list
`-v -o ExitOnForwardFailure=yes -o ServerAliveInterval=60
-o ServerAliveCountMax=3 -o ControlMaster=no -o ControlPersist=no
-o StrictHostKeyChecking=no -NL localPort:remoteHost:remotePort sshHost`,
in that order. -/
theorem C3_ssh_command_exact (now : Nat) (probe : Nat → Nat → Bool)
    (key : ForwardKey) (s : ManagerState) (env : EnvironmentConfig)
    (item : SshTunnel)
    (hk : key.kind = .ssh)
    (henv : s.envs.find? (fun e => e.id == key.envId) = some env)
    (hitem : env.sshTunnels.find? (fun t => t.id == key.id) = some item) :
    ∀ c a pid, (c, a, pid) ∈ (start now probe key s).spawns →
      c = "ssh" ∧
      a = ["-v",
           "-o", "ExitOnForwardFailure=yes",
           "-o", "ServerAliveInterval=60",
           "-o", "ServerAliveCountMax=3",
           "-o", "ControlMaster=no",
           "-o", "ControlPersist=no",
           "-o", "StrictHostKeyChecking=no",
           "-NL", toString item.localPort ++ ":" ++ item.remoteHost ++ ":" ++
             toString item.remotePort,
           item.sshHost] := by
  intro c a pid hmem
  by_cases hrun : isRunning key s = false
  · have hres : resolveCmd s.envs key =
        some ("ssh", sshArgs item, item.localPort) := by
      simp [resolveCmd, henv, hk, hitem]
    rw [start_eq_startPort now probe hrun hres] at hmem
    cases hfp : findByPort s.processes item.localPort with
    | none =>
        rw [startPort_free now probe key _ _ hfp] at hmem
        simp only [List.mem_singleton, Prod.mk.injEq] at hmem
        exact ⟨hmem.1, by simp [hmem.2.1, sshArgs]⟩
    | some holder =>
        cases hp : probe item.localPort 300 with
        | true =>
            rw [startPort_live now key _ _ hfp hp] at hmem
            simp at hmem
        | false =>
            rw [startPort_dead now key _ _ hfp hp] at hmem
            simp only [List.mem_singleton, Prod.mk.injEq] at hmem
            exact ⟨hmem.1, by simp [hmem.2.1, sshArgs]⟩
  · have hr : isRunning key s = true := by
      revert hrun
      cases isRunning key s <;> simp
    rw [start, if_pos hr] at hmem
    simp at hmem

theorem C3_ssh_command_exact_witness :
    "ssh" = "ssh" ∧
    sshArgs sampleTunnelA =
      ["-v",
       "-o", "ExitOnForwardFailure=yes",
       "-o", "ServerAliveInterval=60",
       "-o", "ServerAliveCountMax=3",
       "-o", "ControlMaster=no",
       "-o", "ControlPersist=no",
       "-o", "StrictHostKeyChecking=no",
       "-NL", toString sampleTunnelA.localPort ++ ":" ++
         sampleTunnelA.remoteHost ++ ":" ++
         toString sampleTunnelA.remotePort,
       sampleTunnelA.sshHost] :=
  C3_ssh_command_exact 0 liveProbe keyA sampleState sampleEnv sampleTunnelA
    rfl (by decide) (by decide) "ssh" (sshArgs sampleTunnelA) 0 (by decide)

/-- C10: `start` on a not-running key whose environment id or
tunnel/forward id resolves to nothing throws the corresponding error and
leaves everything unchanged: same registry and failure counters, no
spawn, no kill, no probe, and no change notification. -/
theorem C10_unknown_resolution (now : Nat) (probe : Nat → Nat → Bool)
    (key : ForwardKey) (s : ManagerState)
    (hrun : isRunning key s = false) :
    (s.envs.find? (fun e => e.id == key.envId) = none →
       start now probe key s =
         ⟨s, .error (.unknownEnv key.envId), 0, [], [], []⟩) ∧
    (∀ env, s.envs.find? (fun e => e.id == key.envId) = some env →
       (key.kind = .ssh →
          env.sshTunnels.find? (fun t => t.id == key.id) = none →
          start now probe key s =
            ⟨s, .error (.unknownSsh key.id), 0, [], [], []⟩) ∧
       (key.kind = .k8s →
          env.k8sForwards.find? (fun f => f.id == key.id) = none →
          start now probe key s =
            ⟨s, .error (.unknownK8s key.id), 0, [], [], []⟩)) := by
  refine ⟨?_, ?_⟩
  · intro hfind
    simp [start, hrun, hfind]
  · intro env hfind
    refine ⟨?_, ?_⟩
    · intro hkind hitem
      simp [start, hrun, hfind, hkind, hitem]
    · intro hkind hitem
      simp [start, hrun, hfind, hkind, hitem]

theorem C10_unknown_resolution_witness :
    start 0 liveProbe ⟨"nope", Kind.ssh, "x"⟩ sampleState =
      ⟨sampleState, .error (.unknownEnv "nope"), 0, [], [], []⟩ ∧
    start 0 liveProbe ⟨"stg", Kind.ssh, "ghost"⟩ sampleState =
      ⟨sampleState, .error (.unknownSsh "ghost"), 0, [], [], []⟩ :=
  ⟨(C10_unknown_resolution 0 liveProbe ⟨"nope", Kind.ssh, "x"⟩ sampleState
      (by decide)).1 (by decide),
   ((C10_unknown_resolution 0 liveProbe ⟨"stg", Kind.ssh, "ghost"⟩ sampleState
      (by decide)).2 sampleEnv (by decide)).1 rfl (by decide)⟩

/-- C8 (counterexample): `stopAllForEnv` fires the change notification
even when it stops nothing — here the registry is empty and unchanged,
yet one notification fires, so a notification can fire with no
externally-visible state transition. -/
theorem C8_counterexample :
    (stopAllForEnv "other" sampleState).fires = 1 ∧
    (stopAllForEnv "other" sampleState).state = sampleState := by
  constructor
  · rfl
  · decide

/-- C8 (amended): `stop` on a non-running key is a no-op firing no
notification, `stopAll` on an empty registry is a no-op firing no
notification, and `stopAllForEnv` fires exactly one notification per
call, whether or not it changed the running set. -/
theorem C8_notification_discipline :
    (∀ k s, lookupKey s.processes (keyToId k) = none →
       stop k s = ⟨s, 0, []⟩) ∧
    (∀ s : ManagerState, s.processes = [] → stopAll s = ⟨s, 0, []⟩) ∧
    (∀ envId s, (stopAllForEnv envId s).fires = 1) := by
  refine ⟨?_, ?_, ?_⟩
  · intro k s h
    rw [stop, h]
  · intro s h
    rw [stopAll, if_pos h]
  · intro envId s
    rfl

theorem C8_notification_discipline_witness :
    stop keyB sampleState = ⟨sampleState, 0, []⟩ ∧
    stopAll sampleState = ⟨sampleState, 0, []⟩ ∧
    (stopAllForEnv "stg" healthState).fires = 1 :=
  ⟨C8_notification_discipline.1 keyB sampleState (by decide),
   C8_notification_discipline.2.1 sampleState (by decide),
   C8_notification_discipline.2.2 "stg" healthState⟩

/-- C7 (counterexample): `keyToId` is not injective over arbitrary
triples — two distinct keys whose `envId`/`id` contain a colon share the
string form `a:ssh:ssh:b`. -/
theorem C7_counterexample :
    keyToId ⟨"a:ssh", Kind.ssh, "b"⟩ = keyToId ⟨"a", Kind.ssh, "ssh:b"⟩ ∧
    (⟨"a:ssh", Kind.ssh, "b"⟩ : ForwardKey) ≠ ⟨"a", Kind.ssh, "ssh:b"⟩ := by
  constructor
  · rfl
  · decide

/-- C7 (amended): `keyToId` is injective over every pair of keys whose
`envId` is colon-free — equal string forms then force all three fields
to agree. -/
theorem C7_keyToId_injective (k1 k2 : ForwardKey)
    (h1 : (':' : Char) ∉ k1.envId.data) (h2 : (':' : Char) ∉ k2.envId.data)
    (heq : keyToId k1 = keyToId k2) : k1 = k2 := by
  have hd : (keyToId k1).data = (keyToId k2).data := by rw [heq]
  rw [keyToId_data, keyToId_data] at hd
  obtain ⟨he, hrest⟩ := append_cons_split hd h1 h2
  obtain ⟨hk, hid⟩ := append_cons_split hrest (colon_not_mem_kindStr _)
    (colon_not_mem_kindStr _)
  have hkind : k1.kind = k2.kind := kindStr_inj (String.ext hk)
  have henv : k1.envId = k2.envId := String.ext he
  have hide : k1.id = k2.id := String.ext hid
  cases k1
  cases k2
  simp_all

theorem C7_keyToId_injective_witness :
    (⟨"stg", Kind.ssh, "a:b"⟩ : ForwardKey) = ⟨"stg", Kind.ssh, "a:b"⟩ :=
  C7_keyToId_injective ⟨"stg", Kind.ssh, "a:b"⟩ ⟨"stg", Kind.ssh, "a:b"⟩
    (by decide) (by decide) rfl

/-- C9: `validateConfigDuplicates` is a pure function of the
configuration (states with equal `envs` agree, so the runtime registry
plays no role); per environment it groups all ssh and k8s definitions by
`localPort` — each port's group listing every colliding identifier in
definition order — with pairwise-distinct port keys; the collector emits
exactly one diagnostic line per group of size over one; and the
two-tunnels-on-3306 environment yields exactly one diagnostic naming
both. -/
theorem C9_validate_duplicates :
    (∀ s1 s2 : ManagerState, s1.envs = s2.envs →
       validateDuplicatesOf s1 = validateDuplicatesOf s2) ∧
    (∀ env port, lookupPort (envSeen env) port =
       if labelsFor env port = [] then none else some (labelsFor env port)) ∧
    (∀ env, (portKeys (envSeen env)).Nodup) ∧
    (∀ name seen errs, collectErrors name seen errs =
       errs ++ (seen.filter (fun e => 1 < e.2.length)).map
         (fun e => dupLine name e.1 e.2)) ∧
    validateConfigDuplicates [sampleEnv] =
      ["Env Stg: localPort 3306 used by ssh:dbx, ssh:cache"] := by
  refine ⟨?_, ?_, ?_, ?_, ?_⟩
  · intro s1 s2 h
    rw [validateDuplicatesOf, validateDuplicatesOf, h]
  · exact lookupPort_envSeen
  · intro env
    rw [envSeen_eq_foldl]
    exact nodup_portKeys_foldl _ _ (by simp [portKeys])
  · exact collectErrors_eq
  · rfl

theorem C9_validate_duplicates_witness :
    validateDuplicatesOf sampleState = validateDuplicatesOf healthState ∧
    collectErrors "Stg" (envSeen sampleEnv) [] =
      [] ++ ((envSeen sampleEnv).filter (fun e => 1 < e.2.length)).map
        (fun e => dupLine "Stg" e.1 e.2) :=
  ⟨C9_validate_duplicates.1 sampleState healthState rfl,
   C9_validate_duplicates.2.2.2.1 "Stg" (envSeen sampleEnv) []⟩

/-- C4: when `start` finds the resolved `localPort` held by a
registered forward, it probes the port; a dead port gets the stale
holder killed and removed and the start then succeeds with the key
registered as the port's holder, while a live port fails the start with
the port-conflict error, leaving the state untouched and spawning
nothing. -/
theorem C4_prune_stale_holder (now : Nat) (probe : Nat → Nat → Bool)
    (key : ForwardKey) (s : ManagerState) (cmd : String)
    (args : List String) (port : Nat) (holder : RunningProc)
    (hrun : isRunning key s = false)
    (hres : resolveCmd s.envs key = some (cmd, args, port))
    (hold : findByPort s.processes port = some holder) :
    (probe port 300 = false →
       (start now probe key s).result = .ok () ∧
       holder.pid ∈ (start now probe key s).kills ∧
       lookupKey (start now probe key s).state.processes (keyToId key) =
         some ⟨key, s.nextPid, cmd, args, port, now⟩ ∧
       findByPort (start now probe key s).state.processes port =
         some ⟨key, s.nextPid, cmd, args, port, now⟩) ∧
    (probe port 300 = true →
       (start now probe key s).result = .error (.portConflict port) ∧
       (start now probe key s).state = s ∧
       (start now probe key s).spawns = []) := by
  rw [start_eq_startPort now probe hrun hres]
  have hlk : lookupKey s.processes (keyToId key) = none :=
    (isRunning_eq_false_iff _ _).mp hrun
  constructor
  · intro hp
    rw [startPort_dead now key cmd args hold hp]
    have hlk2 : lookupKey
        (s.processes.filter (fun e => !(e.2.localPort == port)))
        (keyToId key) = none := lookupKey_filter_none _ hlk
    refine ⟨rfl, by simp, ?_, ?_⟩
    · simp [spawnAndTrack, lookupKey_setKey_self]
    · show findByPort (setKey
        (s.processes.filter (fun e => !(e.2.localPort == port)))
        (keyToId key) ⟨key, s.nextPid, cmd, args, port, now⟩) port = _
      rw [setKey_eq_append _ hlk2,
        findByPort_append_left_none _
          (fun e he => by simpa using (List.mem_filter.mp he).2)]
      simp [findByPort]
  · intro hp
    rw [startPort_live now key cmd args hold hp]
    exact ⟨rfl, rfl, rfl⟩

theorem C4_prune_stale_holder_witness :
    ((start 100 deadProbe keyB healthState).result = .ok () ∧
     sampleRun.pid ∈ (start 100 deadProbe keyB healthState).kills ∧
     lookupKey (start 100 deadProbe keyB healthState).state.processes
       (keyToId keyB) =
       some ⟨keyB, healthState.nextPid, "ssh", sshArgs sampleTunnelB,
         3306, 100⟩ ∧
     findByPort (start 100 deadProbe keyB healthState).state.processes 3306 =
       some ⟨keyB, healthState.nextPid, "ssh", sshArgs sampleTunnelB,
         3306, 100⟩) ∧
    ((start 100 liveProbe keyB healthState).result =
       .error (.portConflict 3306) ∧
     (start 100 liveProbe keyB healthState).state = healthState ∧
     (start 100 liveProbe keyB healthState).spawns = []) :=
  ⟨(C4_prune_stale_holder 100 deadProbe keyB healthState "ssh"
      (sshArgs sampleTunnelB) 3306 sampleRun (by decide) (by decide)
      (by decide)).1 rfl,
   (C4_prune_stale_holder 100 liveProbe keyB healthState "ssh"
      (sshArgs sampleTunnelB) 3306 sampleRun (by decide) (by decide)
      (by decide)).2 rfl⟩

/-- C1 (counterexample): with two not-running same-port keys and a live
port, starting the first succeeds and starting the second fails with the
port-conflict error, but that error's message names neither the holding
forward's key string nor its id — it does not communicate which existing
forward holds the port, contrary to the claim. -/
theorem C1_counterexample :
    (start 0 liveProbe keyA sampleState).result = .ok () ∧
    (start 1 liveProbe keyB
      (start 0 liveProbe keyA sampleState).state).result =
      .error (.portConflict 3306) ∧
    strContains (StartError.message (.portConflict 3306))
      (keyToId keyA) = false ∧
    strContains (StartError.message (.portConflict 3306)) "dbx" = false := by
  refine ⟨by decide, by decide, by decide, by decide⟩

/-- C1 (amended): for two distinct not-running keys (distinct string
forms) whose definitions resolve to the same `localPort`, if `start(k1)`
succeeds and the port probes live, then `start(k2)` fails with the
port-conflict error (whose message names the conflicting port, though
not the holding forward), the state is unchanged, nothing is spawned and
no notification fires for `k2`, and `k1` remains registered as
running. -/
theorem C1_port_conflict (now1 now2 : Nat)
    (probe1 probe2 : Nat → Nat → Bool) (k1 k2 : ForwardKey)
    (s : ManagerState) (c1 c2 : String) (a1 a2 : List String) (port : Nat)
    (hrun1 : isRunning k1 s = false)
    (hrun2 : isRunning k2 s = false)
    (hkk : keyToId k1 ≠ keyToId k2)
    (hres1 : resolveCmd s.envs k1 = some (c1, a1, port))
    (hres2 : resolveCmd s.envs k2 = some (c2, a2, port))
    (hok : (start now1 probe1 k1 s).result = .ok ())
    (hlive : probe2 port 300 = true) :
    (start now2 probe2 k2 (start now1 probe1 k1 s).state).result =
      .error (.portConflict port) ∧
    strContains (StartError.message (.portConflict port))
      (toString port) = true ∧
    (start now2 probe2 k2 (start now1 probe1 k1 s).state).state =
      (start now1 probe1 k1 s).state ∧
    (start now2 probe2 k2 (start now1 probe1 k1 s).state).spawns = [] ∧
    (start now2 probe2 k2 (start now1 probe1 k1 s).state).fires = 0 ∧
    isRunning k1
      (start now2 probe2 k2 (start now1 probe1 k1 s).state).state = true := by
  obtain ⟨base, hproc, hfree, hpres, henvs⟩ :=
    start_ok_shape now1 probe1 hrun1 hres1 hok
  have hlk2 : lookupKey s.processes (keyToId k2) = none :=
    (isRunning_eq_false_iff _ _).mp hrun2
  have hlk2' : lookupKey (start now1 probe1 k1 s).state.processes
      (keyToId k2) = none := by
    rw [hproc, lookupKey_append_none _ (hpres _ hlk2)]
    simp [lookupKey, hkk]
  have hrun2' : isRunning k2 (start now1 probe1 k1 s).state = false :=
    (isRunning_eq_false_iff _ _).mpr hlk2'
  have hres2' : resolveCmd (start now1 probe1 k1 s).state.envs k2 =
      some (c2, a2, port) := by
    rw [henvs]
    exact hres2
  have hfp : findByPort (start now1 probe1 k1 s).state.processes port =
      some ⟨k1, s.nextPid, c1, a1, port, now1⟩ := by
    rw [hproc, findByPort_append_left_none _ hfree]
    simp [findByPort]
  rw [start_eq_startPort now2 probe2 hrun2' hres2',
    startPort_live now2 k2 c2 a2 hfp hlive]
  have hk1run : lookupKey (start now1 probe1 k1 s).state.processes
      (keyToId k1) = some ⟨k1, s.nextPid, c1, a1, port, now1⟩ := by
    rw [hproc, lookupKey_append_none _
      (hpres _ ((isRunning_eq_false_iff _ _).mp hrun1))]
    simp [lookupKey]
  refine ⟨rfl, portConflict_message_names_port port, rfl, rfl, rfl, ?_⟩
  simp [isRunning, hk1run]

theorem C1_port_conflict_witness :
    (start 1 liveProbe keyB (start 0 liveProbe keyA sampleState).state).result =
      .error (.portConflict 3306) ∧
    strContains (StartError.message (.portConflict 3306))
      (toString 3306) = true ∧
    (start 1 liveProbe keyB (start 0 liveProbe keyA sampleState).state).state =
      (start 0 liveProbe keyA sampleState).state ∧
    (start 1 liveProbe keyB
      (start 0 liveProbe keyA sampleState).state).spawns = [] ∧
    (start 1 liveProbe keyB
      (start 0 liveProbe keyA sampleState).state).fires = 0 ∧
    isRunning keyA
      (start 1 liveProbe keyB
        (start 0 liveProbe keyA sampleState).state).state = true :=
  C1_port_conflict 0 1 liveProbe liveProbe keyA keyB sampleState
    "ssh" "ssh" (sshArgs sampleTunnelA) (sshArgs sampleTunnelB) 3306
    (by decide) (by decide) (by decide) (by decide) (by decide) (by decide)
    rfl

/-- C5: in a sweep, a live, out-of-grace forward whose probe succeeds
keeps its entry with the failure counter reset to zero; with one prior
consecutive failure a failing probe keeps the entry at counter two; with
two prior consecutive failures a third failing probe kills the process,
removes the entry, and clears the counter. -/
theorem C5_failure_threshold (now : Nat) (exitCode : Nat → Option Int)
    (probe : Nat → Nat → Bool) (s : ManagerState) (id : String)
    (p : RunningProc)
    (hnd : (keysOf s.processes).Nodup)
    (hin : lookupKey s.processes id = some p)
    (hAlive : exitCode p.pid = none)
    (hage : ¬ now - p.startedAt < healthGraceMs) :
    (probe p.localPort 1200 = true →
       lookupKey (healthCheck now exitCode probe s).state.processes id =
         some p ∧
       failCount (healthCheck now exitCode probe s).state id = 0) ∧
    (probe p.localPort 1200 = false → failCount s id = 1 →
       lookupKey (healthCheck now exitCode probe s).state.processes id =
         some p ∧
       failCount (healthCheck now exitCode probe s).state id = 2) ∧
    (probe p.localPort 1200 = false → failCount s id = 2 →
       lookupKey (healthCheck now exitCode probe s).state.processes id =
         none ∧
       failCount (healthCheck now exitCode probe s).state id = 0 ∧
       p.pid ∈ (healthCheck now exitCode probe s).kills) := by
  have h := (healthCheck_entry now exitCode probe s hnd hin hAlive).2 hage
  refine ⟨?_, ?_, ?_⟩
  · intro hp
    obtain ⟨ha, hb, _⟩ := h.1 hp
    exact ⟨ha, by rw [failCount, hb]; rfl⟩
  · intro hp hc
    have hsmall : failCount s id + 1 < 3 := by omega
    obtain ⟨ha, hb⟩ := (h.2 hp).1 hsmall
    refine ⟨ha, ?_⟩
    rw [failCount, hb, hc]
    rfl
  · intro hp hc
    have hbig : 3 ≤ failCount s id + 1 := by omega
    obtain ⟨ha, hb, hk⟩ := (h.2 hp).2 hbig
    exact ⟨ha, by rw [failCount, hb]; rfl, hk⟩

theorem C5_failure_threshold_witness :
    lookupKey
      (healthCheck 30000 noExit deadProbe healthState).state.processes
      (keyToId keyA) = none ∧
    failCount (healthCheck 30000 noExit deadProbe healthState).state
      (keyToId keyA) = 0 ∧
    sampleRun.pid ∈ (healthCheck 30000 noExit deadProbe healthState).kills :=
  (C5_failure_threshold 30000 noExit deadProbe healthState (keyToId keyA)
    sampleRun (by decide) (by decide) rfl (by decide)).2.2 rfl (by decide)

/-- C6: a running forward younger than the 20 s startup grace period is
never probed by `healthCheck` and keeps both its registry entry and its
failure counter, regardless of the probe oracle. -/
theorem C6_grace_period (now : Nat) (exitCode : Nat → Option Int)
    (probe : Nat → Nat → Bool) (s : ManagerState) (id : String)
    (p : RunningProc)
    (hnd : (keysOf s.processes).Nodup)
    (hin : lookupKey s.processes id = some p)
    (hAlive : exitCode p.pid = none)
    (hage : now - p.startedAt < healthGraceMs) :
    lookupKey (healthCheck now exitCode probe s).state.processes id =
      some p ∧
    lookupKey
      (healthCheck now exitCode probe s).state.portFailureCounts id =
      lookupKey s.portFailureCounts id ∧
    ∀ port, (id, port) ∉ (healthCheck now exitCode probe s).probes :=
  (healthCheck_entry now exitCode probe s hnd hin hAlive).1 hage

theorem C6_grace_period_witness :
    lookupKey
      (healthCheck 5000 noExit deadProbe healthState).state.processes
      (keyToId keyA) = some sampleRun ∧
    (keyToId keyA, 3306) ∉
      (healthCheck 5000 noExit deadProbe healthState).probes :=
  ⟨(C6_grace_period 5000 noExit deadProbe healthState (keyToId keyA)
      sampleRun (by decide) (by decide) rfl (by decide)).1,
   (C6_grace_period 5000 noExit deadProbe healthState (keyToId keyA)
      sampleRun (by decide) (by decide) rfl (by decide)).2.2 3306⟩

end LDF
